import Mathlib

/-!
Shallow embedding of the TCCP core (`src/tccp.cpp`, `src/tccp.h`): the
challenge–commitment proof scheme gating block acceptance.  `uint256` values
are modelled as lists of bytes (each a `Nat`, little-endian significance
order, length 32 for well-formed values).  External collaborators that live
outside `src/` (the double-hash, the Merkle-tree routines, transaction
hashing/serialization-size, and script number encoding) are modelled as
function parameters bundled in a `Collaborators` structure, per spec §6.
The external randomness source `InsecureRand256()` is modelled as an explicit
stream `rand : Nat → List Nat` indexed by the number of draws made so far in
the current invocation.
-/

set_option autoImplicit false

namespace TCCPModel

/-- Bytes of a `uint256` value: a list of naturals, little-endian
significance order; well-formed values have length 32 with entries < 256. -/
abbrev UInt256B := List Nat

/-- Model of `uint256()` (default construction): the all-zero 32-byte value. -/
def zero256 : UInt256B := List.replicate 32 0

/-- Little-endian byte interpretation, used to model
`bit_cast<uint64_t>(seed)` (the low 8 bytes of the 32-byte value). -/
def fromLE (l : List Nat) : Nat := l.foldr (fun b acc => b + 256 * acc) 0

/-- Modelled from the spec: `OP_RETURN`, the no-op marker opcode from
`script/script.h` (outside `src/`); its concrete byte value is 0x6a. -/
def opRETURN : Nat := 0x6a

/-- Modelled from the spec: `TCCP_MAGIC_BYTES`, the fixed 4-byte magic tag
identifying a commitment output.  Its concrete value is defined outside
`src/`; every claim below is parametric in the value, only its length (4)
matters. -/
def TCCP_MAGIC_BYTES : List Nat := [0x54, 0x43, 0x43, 0x50]

/-- Model of `CTxIn` as built by `GenerateVirtualChallenge` (fields actually
used by the core: `prevout.hash`, `prevout.n`, `scriptSig`). -/
structure TxIn where
  prevoutHash : UInt256B
  prevoutN : Nat
  scriptSig : List Nat
  deriving DecidableEq, Repr

/-- Model of `CTxOut` (fields used by the core: `nValue`, `scriptPubKey`). -/
structure TxOut where
  nValue : Nat
  scriptPubKey : List Nat
  deriving DecidableEq, Repr

/-- Model of a transaction (`CMutableTransaction` / `CTransaction`): the
fields the core reads or writes. -/
structure Tx where
  nVersion : Nat
  nLockTime : Nat
  vin : List TxIn
  vout : List TxOut
  deriving DecidableEq, Repr

/-- Model of `CBlock`: the transaction list, `vtx[0]` being the coinbase. -/
structure Block where
  vtx : List Tx
  deriving DecidableEq, Repr

/-- Modelled from the spec (§6): the external collaborator interfaces the
core consumes.  `hash256` is `CHash256` over the written bytes, `txHash` is
`CTransaction::GetHash`, `txTotalSize` is `CTransaction::GetTotalSize`,
`computeMerkleRoot` is `ComputeMerkleRoot` from `consensus/merkle.h`,
`blockMerkleRoot` is `BlockMerkleRoot`, and `pushNum` is the byte encoding
produced by `CScript::operator<<` on an integer. -/
structure Collaborators where
  hash256 : List Nat → UInt256B
  txHash : Tx → UInt256B
  txTotalSize : Tx → Nat
  computeMerkleRoot : List UInt256B → UInt256B
  blockMerkleRoot : List Tx → UInt256B
  pushNum : Nat → List Nat

/-- Model of `LCG::next` (`src/tccp.cpp` lines 25–28): the state update
`m_state = 1664525 * m_state + 1013904223` in `uint64_t` wraparound
arithmetic, returning `m_state >> 32`.  First component: the returned
32-bit value; second: the updated 64-bit state. -/
def lcgNext (s : Nat) : Nat × Nat :=
  ((1664525 * s + 1013904223) % 2 ^ 64 / 2 ^ 32, (1664525 * s + 1013904223) % 2 ^ 64)

/-- Model of the `LCG` constructor (`src/tccp.cpp` line 24):
`m_state = bit_cast<uint64_t>(seed)`, i.e. the low 8 bytes of the seed
interpreted little-endian. -/
def lcgInit (seed : UInt256B) : Nat := fromLE (seed.take 8)

/-- The 32 generator draws filling the synthetic output payload
(`src/tccp.cpp` line 54): `data[i] = prng.next() & 0xFF` in order.  Returns
the byte list and the generator state after the draws. -/
def drawBytes : Nat → Nat → List Nat × Nat
  | 0, s => ([], s)
  | n + 1, s =>
    let v := lcgNext s
    let rest := drawBytes n v.2
    (v.1 % 256 :: rest.1, rest.2)

/-- Construction of one synthetic transaction (`src/tccp.cpp` lines 46–59):
version 1, lock-time 0, one input whose `prevout.hash` is the external
randomness draw `randHash` (`InsecureRand256()`), `prevout.n` is
`prng.next() % 100`, `scriptSig` pushes two subsequent draws; one zero-value
output whose script is `OP_RETURN` followed by the direct push (length byte
0x20) of 32 generator-derived payload bytes.  Returns the transaction and
the generator state after all draws. -/
def mkVirtualTx (pushNum : Nat → List Nat) (randHash : UInt256B) (s : Nat) : Tx × Nat :=
  let d1 := lcgNext s
  let d2 := lcgNext d1.2
  let d3 := lcgNext d2.2
  let payload := drawBytes 32 d3.2
  (⟨1, 0,
    [⟨randHash, d1.1 % 100, pushNum d2.1 ++ pushNum d3.1⟩],
    [⟨0, opRETURN :: 0x20 :: payload.1⟩]⟩, payload.2)

/-- The `while (true)` loop of `GenerateVirtualChallenge` (`src/tccp.cpp`
lines 45–64), with explicit fuel.  Arguments: fuel, generator state, index
of the next external randomness draw, `currentSize`, `maxSize`.  Returns
`none` when fuel runs out; otherwise the accepted transactions in order
together with the first rejected candidate (the loop always exits by
rejecting a candidate).  Fuel `maxSize + 1` is provably sufficient whenever
every transaction's serialized size is positive (see
`genLoopFuel_isSome_of_pos`). -/
def genLoopFuel (szFn : Tx → Nat) (pushNum : Nat → List Nat) (rand : Nat → UInt256B) :
    Nat → Nat → Nat → Nat → Nat → Option (List Tx × Tx)
  | 0, _, _, _, _ => none
  | fuel + 1, s, k, currentSize, maxSize =>
    let m := mkVirtualTx pushNum (rand k) s
    let txSize := szFn m.1
    if currentSize + txSize > maxSize then some ([], m.1)
    else
      match genLoopFuel szFn pushNum rand fuel m.2 (k + 1) (currentSize + txSize) maxSize with
      | none => none
      | some (l, rej) => some (m.1 :: l, rej)

/-- Placeholder transaction used only to make `Option.getD` total; never
reached when sizes are positive. -/
def defaultTx : Tx := ⟨1, 0, [], []⟩

/-- Model of `GenerateVirtualChallenge` (`src/tccp.cpp` lines 40–66),
additionally returning the first rejected candidate.  The C++ loop diverges
if serialized sizes could be 0; the model returns `([], defaultTx)` in that
unreachable case (fuel exhaustion). -/
def generateVirtualChallengeFull (szFn : Tx → Nat) (pushNum : Nat → List Nat)
    (rand : Nat → UInt256B) (seed : UInt256B) (maxSize : Nat) : List Tx × Tx :=
  (genLoopFuel szFn pushNum rand (maxSize + 1) (lcgInit seed) 0 0 maxSize).getD ([], defaultTx)

/-- Model of `GenerateVirtualChallenge` (`src/tccp.cpp` lines 40–66): the
vector of accepted synthetic transactions. -/
def GenerateVirtualChallenge (szFn : Tx → Nat) (pushNum : Nat → List Nat)
    (rand : Nat → UInt256B) (seed : UInt256B) (maxSize : Nat) : List Tx :=
  (generateVirtualChallengeFull szFn pushNum rand seed maxSize).1

/-- Model of `CalculateSeed` (`src/tccp.cpp` lines 32–37): the double-hash
of `prevBlockHash ‖ merkleRoot`. -/
def CalculateSeed (hash256 : List Nat → UInt256B) (prevBlockHash merkleRoot : UInt256B) :
    UInt256B :=
  hash256 (prevBlockHash ++ merkleRoot)

/-- Model of `TCCP::ComputeProof` (`src/tccp.cpp` lines 72–83): derive the
seed, generate the virtual challenge bounded by `maxSize`
(`params.nTCCPChallengeSize`), return `uint256()` if it is empty, else the
Merkle root of the challenge transactions' hashes. -/
def ComputeProof (c : Collaborators) (rand : Nat → UInt256B)
    (prevBlockHash provisionalMerkleRoot : UInt256B) (maxSize : Nat) : UInt256B :=
  let seed := CalculateSeed c.hash256 prevBlockHash provisionalMerkleRoot
  let v_chal := GenerateVirtualChallenge c.txTotalSize c.pushNum rand seed maxSize
  if v_chal.isEmpty then zero256
  else c.computeMerkleRoot (v_chal.map c.txHash)

/-- The predicate a coinbase output script must satisfy to be recognized as
a commitment by the scan in `TCCP::VerifyBlock` (`src/tccp.cpp` lines
94–96): length exactly 38, byte 0 `OP_RETURN`, byte 1 `0x24`, and the first
4 bytes of `data` (the script from offset 2) equal to `TCCP_MAGIC_BYTES`. -/
def isCommitmentScript (s : List Nat) : Bool :=
  s.length == 38 && s.getD 0 0 == opRETURN && s.getD 1 0 == 0x24 &&
    (s.drop 2).take 4 == TCCP_MAGIC_BYTES

/-- The proof decoded from a matching commitment script (`src/tccp.cpp`
line 98): bytes 4 onward of `data`, i.e. bytes 6–37 of the script. -/
def decodeCommitment (s : List Nat) : UInt256B := (s.drop 2).drop 4

/-- Result of the commitment scan in `TCCP::VerifyBlock`. -/
inductive ScanResult where
  | dup : ScanResult
  | notFound : ScanResult
  | found : UInt256B → Nat → ScanResult
  deriving DecidableEq, Repr

/-- The scan loop of `TCCP::VerifyBlock` (`src/tccp.cpp` lines 92–102):
walk the coinbase outputs; on a matching script, return `false` immediately
(`dup`) if a match was already recorded (`commitmentOutIndex != -1`), else
record the decoded proof and the output index.  `i` is the index of the
first output in `outs`; `found` is the recorded match so far. -/
def scanLoop : List TxOut → Nat → Option (UInt256B × Nat) → ScanResult
  | [], _, none => .notFound
  | [], _, some pi => .found pi.1 pi.2
  | o :: rest, i, found =>
    if o.scriptPubKey.length == 38 && o.scriptPubKey.getD 0 0 == opRETURN &&
        o.scriptPubKey.getD 1 0 == 0x24 then
      if (o.scriptPubKey.drop 2).take 4 == TCCP_MAGIC_BYTES then
        match found with
        | some _ => .dup
        | none => scanLoop rest (i + 1) (some ((o.scriptPubKey.drop 2).drop 4, i))
      else scanLoop rest (i + 1) found
    else scanLoop rest (i + 1) found

/-- Model of `TCCP::VerifyBlock` (`src/tccp.cpp` lines 85–118).  The parent
block handle is reduced to the only datum the code reads from it,
`pindexPrev->GetBlockHash()`, hence `Option UInt256B`.  Where the C++ would
have undefined behavior on an empty `block.vtx` (it reads `block.vtx[0]`
unconditionally), the model totalizes with `headD`/`tail`; see the checked
variant `VerifyBlockChecked` for the access-safety analysis. -/
def VerifyBlock (c : Collaborators) (rand : Nat → UInt256B) (block : Block)
    (pindexPrev : Option UInt256B) (maxSize : Nat) : Bool :=
  match pindexPrev with
  | none => true
  | some prevHash =>
    let coinbaseTx := block.vtx.headD defaultTx
    match scanLoop coinbaseTx.vout 0 none with
    | .dup => false
    | .notFound => false
    | .found submittedProof commitmentOutIndex =>
      let mtx_coinbase : Tx :=
        { coinbaseTx with vout := coinbaseTx.vout.eraseIdx commitmentOutIndex }
      let vtx_temp := mtx_coinbase :: block.vtx.tail
      let M_real_reconstructed := c.blockMerkleRoot vtx_temp
      let expectedProof := ComputeProof c rand prevHash M_real_reconstructed maxSize
      submittedProof == expectedProof

/-! ### Concrete example instantiation of the collaborators

A simple, fully computable stand-in for the external hash/Merkle/size
collaborators, used to evaluate the model at concrete inputs (witnesses and
counterexamples).  It is NOT the production SHA-256d; the spec (§6) fixes
only the collaborator interfaces, not their values. -/

/-- One mixing step of the example digest. -/
def exampleDigestStep (a b : Nat) : Nat :=
  (a * 1103515245 + b * 2654435761 + 12345) % (2 ^ 61 - 1)

/-- Example digest of a byte list: a left fold of mixing steps. -/
def exampleDigest (l : List Nat) : Nat := l.foldl exampleDigestStep 5381

/-- Expansion of a digest value into a 32-byte list. -/
def expand32 (n : Nat) : List Nat :=
  (List.range 32).map fun i => exampleDigestStep n (i + 1) % 256

/-- Flattening of a transaction's modelled fields into one byte list, the
example stand-in for transaction serialization. -/
def exampleTxFlatten (t : Tx) : List Nat :=
  t.nVersion :: t.nLockTime ::
    ((t.vin.map fun i => i.prevoutHash ++ i.prevoutN :: i.scriptSig).flatten ++
      (t.vout.map fun o => o.nValue :: o.scriptPubKey).flatten)

/-- Example instantiation of every collaborator interface: digests built
from `exampleDigest`/`expand32`, a constant serialized size of 96 (the
minimum possible size of a synthetic transaction), and a one-byte script
number encoding. -/
def exampleCollab : Collaborators where
  hash256 := fun l => expand32 (exampleDigest l)
  txHash := fun t => expand32 (exampleDigest (exampleTxFlatten t))
  txTotalSize := fun _ => 96
  computeMerkleRoot := fun leaves => expand32 (exampleDigest leaves.flatten)
  blockMerkleRoot := fun txs => expand32 (exampleDigest (txs.map exampleTxFlatten).flatten)
  pushNum := fun n => [n % 256]

/-! ### Byte-faithful instantiation of the collaborators

For the C1 failing-input evaluation the collaborators are instantiated with
the production algorithms themselves: SHA-256d (`CHash256`), the standard
transaction wire serialization (`primitives/transaction.h`), the script
integer push encoding (`CScript::operator<<` via `CScriptNum`), and the
pairwise duplicate-last Merkle fold (`consensus/merkle.cpp`).  All of these
live outside `src/` and are modelled from the spec's collaborator contracts
(§6) and the standard algorithms they name, so that evaluating the model at
a concrete input computes exactly what the program computes there. -/

/-- SHA-256 round constants (decimal). -/
def shaK : List Nat := [
  1116352408, 1899447441, 3049323471, 3921009573, 961987163, 1508970993,
  2453635748, 2870763221, 3624381080, 310598401, 607225278, 1426881987,
  1925078388, 2162078206, 2614888103, 3248222580, 3835390401, 4022224774,
  264347078, 604807628, 770255983, 1249150122, 1555081692, 1996064986,
  2554220882, 2821834349, 2952996808, 3210313671, 3336571891, 3584528711,
  113926993, 338241895, 666307205, 773529912, 1294757372, 1396182291,
  1695183700, 1986661051, 2177026350, 2456956037, 2730485921, 2820302411,
  3259730800, 3345764771, 3516065817, 3600352804, 4094571909, 275423344,
  430227734, 506948616, 659060556, 883997877, 958139571, 1322822218,
  1537002063, 1747873779, 1955562222, 2024104815, 2227730452, 2361852424,
  2428436474, 2756734187, 3204031479, 3329325298]

/-- SHA-256 initial hash state (decimal). -/
def shaH0 : List Nat := [
  1779033703, 3144134277, 1013904242, 2773480762, 1359893119,
  2600822924, 528734635, 1541459225]

/-- Truncation to a 32-bit word. -/
def w32 (n : Nat) : Nat := n % 4294967296

/-- Right rotation of a 32-bit word by `k` positions. -/
def rotr32 (x k : Nat) : Nat := w32 (x / 2 ^ k + x % 2 ^ k * 2 ^ (32 - k))

/-- SHA-256 choose function. -/
def shaCh (x y z : Nat) : Nat := (x &&& y) ^^^ ((x ^^^ 4294967295) &&& z)

/-- SHA-256 majority function. -/
def shaMaj (x y z : Nat) : Nat := (x &&& y) ^^^ (x &&& z) ^^^ (y &&& z)

/-- SHA-256 big sigma-0. -/
def shaS0 (x : Nat) : Nat := rotr32 x 2 ^^^ rotr32 x 13 ^^^ rotr32 x 22

/-- SHA-256 big sigma-1. -/
def shaS1 (x : Nat) : Nat := rotr32 x 6 ^^^ rotr32 x 11 ^^^ rotr32 x 25

/-- SHA-256 small sigma-0. -/
def shaLs0 (x : Nat) : Nat := rotr32 x 7 ^^^ rotr32 x 18 ^^^ x / 2 ^ 3

/-- SHA-256 small sigma-1. -/
def shaLs1 (x : Nat) : Nat := rotr32 x 17 ^^^ rotr32 x 19 ^^^ x / 2 ^ 10

/-- Big-endian 32-bit words from a byte list (length a multiple of 4). -/
def bytesToW32BE : List Nat → List Nat
  | b0 :: b1 :: b2 :: b3 :: rest =>
    (b0 * 16777216 + b1 * 65536 + b2 * 256 + b3) :: bytesToW32BE rest
  | _ => []

/-- Big-endian bytes of a 32-bit word. -/
def w32ToBytesBE (w : Nat) : List Nat :=
  [w / 16777216 % 256, w / 65536 % 256, w / 256 % 256, w % 256]

/-- Message-schedule extension: append `k` further words. -/
def shaExtend (w : List Nat) : Nat → List Nat
  | 0 => w
  | k + 1 =>
    shaExtend (w ++ [w32 (shaLs1 (w.getD (w.length - 2) 0) + w.getD (w.length - 7) 0 +
      shaLs0 (w.getD (w.length - 15) 0) + w.getD (w.length - 16) 0)]) k

/-- One SHA-256 round on the eight working registers. -/
def shaRound (st : List Nat) (ki wi : Nat) : List Nat :=
  match st with
  | [a, b, c, d, e, f, g, h] =>
    let t1 := w32 (h + shaS1 e + shaCh e f g + ki + wi)
    let t2 := w32 (shaS0 a + shaMaj a b c)
    [w32 (t1 + t2), a, b, c, w32 (d + t1), e, f, g]
  | _ => st

/-- SHA-256 compression of one 64-byte block into the hash state. -/
def shaCompress (hv : List Nat) (block : List Nat) : List Nat :=
  let w := shaExtend (bytesToW32BE block) 48
  let st := (List.range 64).foldl (fun st i => shaRound st (shaK.getD i 0) (w.getD i 0)) hv
  List.zipWith (fun x y => w32 (x + y)) hv st

/-- SHA-256 padding: `0x80`, zero fill, 64-bit big-endian bit length. -/
def shaPad (msg : List Nat) : List Nat :=
  msg ++ 0x80 :: List.replicate ((64 - (msg.length + 9) % 64) % 64) 0 ++
    w32ToBytesBE (msg.length * 8 / 4294967296) ++ w32ToBytesBE (msg.length * 8)

/-- Fold the compression function over consecutive 64-byte blocks. -/
def shaProcess : List Nat → List Nat → Nat → List Nat
  | hv, _, 0 => hv
  | hv, data, k + 1 => shaProcess (shaCompress hv (data.take 64)) (data.drop 64) k

/-- SHA-256 of a byte list. -/
def sha256 (msg : List Nat) : List Nat :=
  let p := shaPad msg
  ((shaProcess shaH0 p (p.length / 64)).map w32ToBytesBE).flatten

/-- Modelled from the spec (§6 `Hash256`): the double SHA-256 of `CHash256`
and `CTransaction::GetHash`, implemented outside `src/`. -/
def hash256d (msg : List Nat) : List Nat := sha256 (sha256 msg)

/-- Little-endian bytes of a 32-bit value. -/
def u32LE (n : Nat) : List Nat := [n % 256, n / 256 % 256, n / 65536 % 256, n / 16777216 % 256]

/-- Little-endian bytes of a 64-bit value. -/
def u64LE (n : Nat) : List Nat := u32LE (n % 4294967296) ++ u32LE (n / 4294967296)

/-- Minimal little-endian byte expansion of a natural (8-byte fuel, enough
for every 32-bit generator draw). -/
def natLEBytes : Nat → Nat → List Nat
  | 0, _ => []
  | k + 1, n => if n = 0 then [] else n % 256 :: natLEBytes k (n / 256)

/-- Modelled from the spec: `CScriptNum(n).getvch()` for a non-negative
value (outside `src/`): minimal little-endian bytes with a zero sign pad
when the top bit of the last byte is set. -/
def scriptNumEncode (n : Nat) : List Nat :=
  let b := natLEBytes 8 n
  if 0x80 ≤ b.getLastD 0 then b ++ [0] else b

/-- Modelled from the spec: `CScript::operator<<(int64_t)` (`push_int64`,
outside `src/`) for the non-negative generator draws: `OP_0` for 0, the
small-integer opcodes `OP_1 … OP_16` for 1–16, otherwise a direct push of
the `CScriptNum` encoding with its length byte. -/
def scriptPushInt (n : Nat) : List Nat :=
  if n = 0 then [0x00]
  else if n ≤ 16 then [0x50 + n]
  else (scriptNumEncode n).length :: scriptNumEncode n

/-- Modelled from the spec: the standard transaction input wire format of
`primitives/transaction.h` (outside `src/`): 32-byte prevout hash, 4-byte
little-endian prevout index, compact-size script length (single byte below
253, which covers every synthetic transaction), script bytes, and the
default `nSequence = 0xffffffff` that `CMutableTransaction`'s
default-constructed `CTxIn` carries. -/
def serializeTxIn (i : TxIn) : List Nat :=
  i.prevoutHash ++ u32LE i.prevoutN ++ (i.scriptSig.length :: i.scriptSig) ++
    [0xff, 0xff, 0xff, 0xff]

/-- Modelled from the spec: the standard transaction output wire format
(outside `src/`): 8-byte little-endian value, compact-size script length
(single byte below 253), script bytes. -/
def serializeTxOut (o : TxOut) : List Nat :=
  u64LE o.nValue ++ (o.scriptPubKey.length :: o.scriptPubKey)

/-- Modelled from the spec: the standard transaction wire format (outside
`src/`): 4-byte little-endian version, compact-size input count, inputs,
compact-size output count, outputs, 4-byte little-endian lock time (counts
below 253, which covers every synthetic transaction).
`CTransaction::GetTotalSize` is the length of this serialization and
`CTransaction::GetHash` its double SHA-256. -/
def serializeTx (t : Tx) : List Nat :=
  u32LE t.nVersion ++ (t.vin.length :: (t.vin.map serializeTxIn).flatten) ++
    (t.vout.length :: (t.vout.map serializeTxOut).flatten) ++ u32LE t.nLockTime

/-- One combining level of the Merkle fold (`consensus/merkle.cpp`, outside
`src/`): pairwise double-SHA-256 of concatenated 32-byte nodes, the last
node duplicated when the level is odd. -/
def merkleStep : List (List Nat) → List (List Nat)
  | [] => []
  | [x] => [hash256d (x ++ x)]
  | x :: y :: rest => hash256d (x ++ y) :: merkleStep rest

/-- The Merkle fold driver with fuel (one unit per level; `hs.length`
levels always suffice). -/
def merkleLoop : Nat → List (List Nat) → List Nat
  | _, [] => zero256
  | _, [h] => h
  | 0, h :: _ => h
  | k + 1, hs => merkleLoop k (merkleStep hs)

/-- Modelled from the spec (§6 `MerkleRoot`): `ComputeMerkleRoot` of
`consensus/merkle.cpp` (outside `src/`): repeatedly combine adjacent pairs,
duplicating the last node of an odd level, until one root remains. -/
def merkleRootBTC (hs : List (List Nat)) : List Nat := merkleLoop hs.length hs

/-- The byte-faithful collaborator bundle: production SHA-256d hashing,
wire-format serialization for sizes and transaction hashes, the faithful
script integer push, and the production Merkle fold.  Evaluating the model
with this bundle at a concrete input computes exactly what the program
computes there. -/
def btcCollab : Collaborators where
  hash256 := hash256d
  txHash := fun t => hash256d (serializeTx t)
  txTotalSize := fun t => (serializeTx t).length
  computeMerkleRoot := merkleRootBTC
  blockMerkleRoot := fun txs => merkleRootBTC (txs.map fun t => hash256d (serializeTx t))
  pushNum := scriptPushInt

/-! ### Helper lemmas about the challenge-building loop -/

/-- Sum of the serialized sizes of a list of transactions. -/
def sumSizes (szFn : Tx → Nat) (l : List Tx) : Nat := (l.map szFn).sum

/-- Fuel sufficiency: when every transaction's serialized size is positive,
fuel exceeding the remaining budget makes the loop complete. -/
theorem genLoopFuel_isSome_of_pos (szFn : Tx → Nat) (pushNum : Nat → List Nat)
    (rand : Nat → UInt256B) (hpos : ∀ t, 0 < szFn t) :
    ∀ fuel s k currentSize maxSize, maxSize - currentSize < fuel →
      (genLoopFuel szFn pushNum rand fuel s k currentSize maxSize).isSome := by
  intro fuel
  induction fuel with
  | zero => intro s k cur maxSize h; omega
  | succ n ih =>
    intro s k cur maxSize h
    simp only [genLoopFuel]
    split
    · simp
    · rename_i hle
      have hsz := hpos (mkVirtualTx pushNum (rand k) s).1
      have hlt : maxSize - (cur + szFn (mkVirtualTx pushNum (rand k) s).1) < n := by omega
      have hih := ih (mkVirtualTx pushNum (rand k) s).2 (k + 1)
        (cur + szFn (mkVirtualTx pushNum (rand k) s).1) maxSize hlt
      match hgl : genLoopFuel szFn pushNum rand n (mkVirtualTx pushNum (rand k) s).2 (k + 1)
          (cur + szFn (mkVirtualTx pushNum (rand k) s).1) maxSize with
      | none => rw [hgl] at hih; simp at hih
      | some (l, rej) => simp

/-- Budget invariant of the loop: on completion the accepted sizes fit the
budget and the rejected candidate would have overflowed it. -/
theorem genLoopFuel_budget (szFn : Tx → Nat) (pushNum : Nat → List Nat)
    (rand : Nat → UInt256B) :
    ∀ fuel s k currentSize maxSize l rej, currentSize ≤ maxSize →
      genLoopFuel szFn pushNum rand fuel s k currentSize maxSize = some (l, rej) →
      currentSize + sumSizes szFn l ≤ maxSize ∧
        maxSize < currentSize + sumSizes szFn l + szFn rej := by
  intro fuel
  induction fuel with
  | zero => intro s k cur maxSize l rej _ h; simp [genLoopFuel] at h
  | succ n ih =>
    intro s k cur maxSize l rej hcur h
    simp only [genLoopFuel] at h
    split at h
    · rename_i hgt
      obtain ⟨hl, hrej⟩ : [] = l ∧ (mkVirtualTx pushNum (rand k) s).1 = rej := by
        simpa using h
      subst hl; subst hrej
      simp only [sumSizes, List.map_nil, List.sum_nil]
      omega
    · rename_i hle
      match hgl : genLoopFuel szFn pushNum rand n (mkVirtualTx pushNum (rand k) s).2 (k + 1)
          (cur + szFn (mkVirtualTx pushNum (rand k) s).1) maxSize with
      | none => rw [hgl] at h; simp at h
      | some (l', rej') =>
        rw [hgl] at h
        simp only [Option.some.injEq, Prod.mk.injEq] at h
        obtain ⟨hl, hrej⟩ := h
        subst hrej
        have hih := ih (mkVirtualTx pushNum (rand k) s).2 (k + 1)
          (cur + szFn (mkVirtualTx pushNum (rand k) s).1) maxSize l' rej' (by omega) hgl
        subst hl
        simp only [sumSizes, List.map_cons, List.sum_cons] at *
        omega

/-! ### Helper lemmas about the commitment scan -/

/-- One step of the scan loop, phrased through `isCommitmentScript` and
`decodeCommitment`. -/
theorem scanLoop_cons (o : TxOut) (rest : List TxOut) (i : Nat)
    (found : Option (UInt256B × Nat)) :
    scanLoop (o :: rest) i found =
      if isCommitmentScript o.scriptPubKey then
        match found with
        | some _ => .dup
        | none => scanLoop rest (i + 1) (some (decodeCommitment o.scriptPubKey, i))
      else scanLoop rest (i + 1) found := by
  simp only [scanLoop, isCommitmentScript, decodeCommitment]
  by_cases h1 : (o.scriptPubKey.length == 38) = true <;>
    by_cases h2 : (o.scriptPubKey.getD 0 0 == opRETURN) = true <;>
      by_cases h3 : (o.scriptPubKey.getD 1 0 == 0x24) = true <;>
        by_cases h4 : ((o.scriptPubKey.drop 2).take 4 == TCCP_MAGIC_BYTES) = true <;>
          simp [h1, h2, h3, h4]

/-- The number of outputs of a list whose script matches the commitment
layout. -/
def countCommitments (outs : List TxOut) : Nat :=
  outs.countP fun o => isCommitmentScript o.scriptPubKey

/-- A scan that already recorded a match returns `dup` as soon as one more
output matches. -/
theorem scanLoop_dup_of_found (outs : List TxOut) :
    ∀ i x, 1 ≤ countCommitments outs → scanLoop outs i (some x) = .dup := by
  induction outs with
  | nil => intro i x h; simp [countCommitments] at h
  | cons o rest ih =>
    intro i x h
    rw [scanLoop_cons]
    by_cases hm : isCommitmentScript o.scriptPubKey
    · simp [hm]
    · simp only [hm, if_false, Bool.false_eq_true]
      apply ih
      simpa [countCommitments, List.countP_cons, hm] using h

/-- Two or more matching outputs make the scan return `dup`. -/
theorem scanLoop_dup_of_two (outs : List TxOut) :
    ∀ i, 2 ≤ countCommitments outs → scanLoop outs i none = .dup := by
  induction outs with
  | nil => intro i h; simp [countCommitments] at h
  | cons o rest ih =>
    intro i h
    rw [scanLoop_cons]
    by_cases hm : isCommitmentScript o.scriptPubKey
    · simp only [hm, if_true]
      apply scanLoop_dup_of_found
      have : countCommitments (o :: rest) = countCommitments rest + 1 := by
        simp [countCommitments, List.countP_cons, hm]
      omega
    · simp only [hm, if_false, Bool.false_eq_true]
      apply ih
      simpa [countCommitments, List.countP_cons, hm] using h

/-- No matching output makes the scan return `notFound`. -/
theorem scanLoop_notFound_of_zero (outs : List TxOut) :
    ∀ i, countCommitments outs = 0 → scanLoop outs i none = .notFound := by
  induction outs with
  | nil => intro i _; rfl
  | cons o rest ih =>
    intro i h
    rw [scanLoop_cons]
    by_cases hm : isCommitmentScript o.scriptPubKey
    · exfalso
      have : countCommitments (o :: rest) = countCommitments rest + 1 := by
        simp [countCommitments, List.countP_cons, hm]
      omega
    · simp only [hm, if_false, Bool.false_eq_true]
      apply ih
      simpa [countCommitments, List.countP_cons, hm] using h

/-- Scanning non-matching outputs followed by a single matching one finds
exactly that one, at the index just past the non-matching prefix. -/
theorem scanLoop_append_single (outs : List TxOut) (o : TxOut)
    (hno : ∀ x ∈ outs, isCommitmentScript x.scriptPubKey = false)
    (hm : isCommitmentScript o.scriptPubKey = true) :
    ∀ i, scanLoop (outs ++ [o]) i none =
      .found (decodeCommitment o.scriptPubKey) (i + outs.length) := by
  induction outs with
  | nil =>
    intro i
    simp only [List.nil_append, List.length_nil, Nat.add_zero]
    rw [scanLoop_cons, if_pos hm]
    rfl
  | cons x rest ih =>
    intro i
    have hx := hno x (by simp)
    rw [List.cons_append, scanLoop_cons, if_neg (by simp [hx])]
    rw [ih (fun y hy => hno y (by simp [hy])) (i + 1)]
    simp only [List.length_cons]
    congr 1
    omega

/-- The index recorded by a successful scan started with an empty
accumulator lies within the scanned output list. -/
theorem scanLoop_found_index_lt (outs : List TxOut) :
    ∀ i acc p j, scanLoop outs i acc = .found p j →
      (∃ q, acc = some (q, j)) ∨ (i ≤ j ∧ j < i + outs.length) := by
  induction outs with
  | nil =>
    intro i acc p j h
    match acc with
    | none => simp [scanLoop] at h
    | some (q, m) =>
      simp only [scanLoop, ScanResult.found.injEq] at h
      exact Or.inl ⟨q, by rw [h.2]⟩
  | cons o rest ih =>
    intro i acc p j h
    rw [scanLoop_cons] at h
    by_cases hm : isCommitmentScript o.scriptPubKey
    · rw [if_pos hm] at h
      match acc with
      | some _ => simp at h
      | none =>
        rcases ih (i + 1) _ p j h with ⟨q, hq⟩ | ⟨h1, h2⟩
        · simp only [Option.some.injEq, Prod.mk.injEq] at hq
          right
          constructor
          · omega
          · simp only [List.length_cons]; omega
        · right
          constructor
          · omega
          · simp only [List.length_cons]; omega
    · rw [if_neg hm] at h
      rcases ih (i + 1) acc p j h with hl | ⟨h1, h2⟩
      · exact Or.inl hl
      · right
        constructor
        · omega
        · simp only [List.length_cons]; omega

/-! ### Commitment encoding (miner side) and auxiliary facts -/

/-- Modelled from the spec (§4.5 Encode, outside `src/`): the 38-byte
commitment script a miner builds from a proof:
`[no-op marker][push-length 0x24][4-byte magic][32-byte proof]`. -/
def commitmentScript (proof : UInt256B) : List Nat :=
  opRETURN :: 0x24 :: (TCCP_MAGIC_BYTES ++ proof)

/-- Decoding inverts encoding. -/
theorem decodeCommitment_commitmentScript (p : UInt256B) :
    decodeCommitment (commitmentScript p) = p := rfl

/-- A well-sized encoded commitment matches the scan's layout predicate. -/
theorem isCommitmentScript_commitmentScript (p : UInt256B) (h : p.length = 32) :
    isCommitmentScript (commitmentScript p) = true := by
  have hlen : (commitmentScript p).length = 38 := by
    simp [commitmentScript, TCCP_MAGIC_BYTES, h]
  simp only [isCommitmentScript, hlen, beq_self_eq_true, Bool.true_and]
  rfl

/-- Removing the element appended at the end of a list recovers the list. -/
theorem eraseIdx_append_length (l : List TxOut) (a : TxOut) :
    (l ++ [a]).eraseIdx l.length = l := by
  induction l with
  | nil => rfl
  | cons x xs ih => simp [List.eraseIdx, ih]

/-- The proof returned by `ComputeProof` has 32 bytes whenever the Merkle
collaborator returns 32 bytes. -/
theorem computeProof_length (c : Collaborators) (rand : Nat → UInt256B)
    (hlen : ∀ l, (c.computeMerkleRoot l).length = 32)
    (prevBlockHash provisionalMerkleRoot : UInt256B) (maxSize : Nat) :
    (ComputeProof c rand prevBlockHash provisionalMerkleRoot maxSize).length = 32 := by
  simp only [ComputeProof]
  split
  · simp [zero256]
  · apply hlen

/-- The example digest expansion always yields 32 bytes. -/
theorem expand32_length (n : Nat) : (expand32 n).length = 32 := by
  simp [expand32]

/-! ### Claim theorems -/

/-- Claim C7: for every block and every consensus-parameters value, if the
previous-block handle is absent, `VerifyBlock` returns true immediately,
regardless of the block's contents. -/
theorem verifyBlock_genesis_exempt (c : Collaborators) (rand : Nat → UInt256B)
    (block : Block) (maxSize : Nat) :
    VerifyBlock c rand block none maxSize = true := rfl

/-- Claim C8: one call to `LCG::next` updates the 64-bit state to
`(1664525 * s + 1013904223) mod 2^64` and returns the upper 32 bits of the
updated state; when the initial state (the seed truncated to its low 64
bits) equals 1, the first output equals `(1664525*1 + 1013904223) >> 32`,
i.e. 0. -/
theorem lcg_next_spec (s : Nat) :
    (lcgNext s).2 = (1664525 * s + 1013904223) % 2 ^ 64 ∧
      (lcgNext s).1 = (1664525 * s + 1013904223) % 2 ^ 64 / 2 ^ 32 ∧
      ∀ seed : UInt256B, lcgInit seed = 1 →
        (lcgNext (lcgInit seed)).1 = (1664525 * 1 + 1013904223) / 2 ^ 32 ∧
          (lcgNext (lcgInit seed)).1 = 0 := by
  refine ⟨rfl, rfl, ?_⟩
  intro seed h
  rw [h]
  exact ⟨by decide, by decide⟩

/-- Witness for C8 at the concrete seed `0x00…01` (little-endian bytes
`1, 0, …, 0`). -/
theorem lcg_next_spec_witness :
    lcgInit (1 :: List.replicate 31 0) = 1 ∧
      (lcgNext (lcgInit (1 :: List.replicate 31 0))).1 = 0 :=
  ⟨by decide, ((lcg_next_spec 1).2.2 (1 :: List.replicate 31 0) (by decide)).2⟩

/-- Claim C9: for every seed and finite `maxSize`, the challenge-building
loop terminates under the precondition that every synthetic transaction's
serialized size is strictly positive: fuel `maxSize + 1` (one iteration per
unit of budget plus the final rejection) always suffices. -/
theorem challenge_loop_terminates (szFn : Tx → Nat) (pushNum : Nat → List Nat)
    (rand : Nat → UInt256B) (seed : UInt256B) (maxSize : Nat)
    (hpos : ∀ t, 0 < szFn t) :
    (genLoopFuel szFn pushNum rand (maxSize + 1) (lcgInit seed) 0 0 maxSize).isSome :=
  genLoopFuel_isSome_of_pos szFn pushNum rand hpos (maxSize + 1) (lcgInit seed) 0 0 maxSize
    (by omega)

/-- Witness for C9 with the example collaborators, seed all-zero,
`maxSize = 100`. -/
theorem challenge_loop_terminates_witness :
    (∀ t, 0 < exampleCollab.txTotalSize t) ∧
      (genLoopFuel exampleCollab.txTotalSize exampleCollab.pushNum (fun _ => zero256)
        (100 + 1) (lcgInit zero256) 0 0 100).isSome :=
  ⟨fun _ => by simp [exampleCollab],
   challenge_loop_terminates exampleCollab.txTotalSize exampleCollab.pushNum
     (fun _ => zero256) zero256 100 (fun _ => by simp [exampleCollab])⟩

/-- Claim C4: for every seed and `maxSize`, the built challenge set's total
serialized size is at most `maxSize`, and adding the serialized size of the
first rejected candidate (which the loop never appends) strictly exceeds
`maxSize`. -/
theorem challenge_size_budget (szFn : Tx → Nat) (pushNum : Nat → List Nat)
    (rand : Nat → UInt256B) (seed : UInt256B) (maxSize : Nat)
    (hpos : ∀ t, 0 < szFn t) :
    sumSizes szFn (GenerateVirtualChallenge szFn pushNum rand seed maxSize) ≤ maxSize ∧
      maxSize < sumSizes szFn (GenerateVirtualChallenge szFn pushNum rand seed maxSize) +
        szFn (generateVirtualChallengeFull szFn pushNum rand seed maxSize).2 := by
  have hsome := genLoopFuel_isSome_of_pos szFn pushNum rand hpos (maxSize + 1)
    (lcgInit seed) 0 0 maxSize (by omega)
  match hgl : genLoopFuel szFn pushNum rand (maxSize + 1) (lcgInit seed) 0 0 maxSize with
  | none => rw [hgl] at hsome; simp at hsome
  | some (l, rej) =>
    have hb := genLoopFuel_budget szFn pushNum rand (maxSize + 1) (lcgInit seed) 0 0 maxSize
      l rej (by omega) hgl
    simp only [GenerateVirtualChallenge, generateVirtualChallengeFull, hgl, Option.getD_some]
    omega

/-- Witness for C4 with the example collaborators, seed all-zero,
`maxSize = 100`. -/
theorem challenge_size_budget_witness :
    (∀ t, 0 < exampleCollab.txTotalSize t) ∧
      (sumSizes exampleCollab.txTotalSize
          (GenerateVirtualChallenge exampleCollab.txTotalSize exampleCollab.pushNum
            (fun _ => zero256) zero256 100) ≤ 100 ∧
        100 < sumSizes exampleCollab.txTotalSize
            (GenerateVirtualChallenge exampleCollab.txTotalSize exampleCollab.pushNum
              (fun _ => zero256) zero256 100) +
          exampleCollab.txTotalSize
            (generateVirtualChallengeFull exampleCollab.txTotalSize exampleCollab.pushNum
              (fun _ => zero256) zero256 100).2) :=
  ⟨fun _ => by simp [exampleCollab],
   challenge_size_budget exampleCollab.txTotalSize exampleCollab.pushNum
     (fun _ => zero256) zero256 100 (fun _ => by simp [exampleCollab])⟩

/-- Claim C3: for every non-genesis block, a coinbase with no output
matching the commitment layout, or with two or more such outputs, makes
`VerifyBlock` return false. -/
theorem verifyBlock_rejects_zero_or_dup_commitments (c : Collaborators)
    (rand : Nat → UInt256B) (prevHash : UInt256B) (maxSize : Nat) (cb : Tx)
    (rest : List Tx)
    (h : countCommitments cb.vout = 0 ∨ 2 ≤ countCommitments cb.vout) :
    VerifyBlock c rand ⟨cb :: rest⟩ (some prevHash) maxSize = false := by
  simp only [VerifyBlock, List.headD_cons]
  rcases h with h | h
  · rw [scanLoop_notFound_of_zero cb.vout 0 h]
  · rw [scanLoop_dup_of_two cb.vout 0 h]

/-- Witness for C3: a coinbase with a single non-commitment output (zero
matches) is rejected. -/
theorem verifyBlock_rejects_zero_or_dup_commitments_witness :
    countCommitments (⟨1, 0, [], [⟨50, [0, 1, 2]⟩]⟩ : Tx).vout = 0 ∧
      VerifyBlock exampleCollab (fun _ => zero256) ⟨[⟨1, 0, [], [⟨50, [0, 1, 2]⟩]⟩]⟩
        (some zero256) 100 = false :=
  ⟨by decide,
   verifyBlock_rejects_zero_or_dup_commitments exampleCollab (fun _ => zero256) zero256 100
     ⟨1, 0, [], [⟨50, [0, 1, 2]⟩]⟩ [] (Or.inl (by decide))⟩

/-- Claim C6: whenever the generated challenge set is empty — in particular
whenever `maxSize` is smaller than every possible synthetic transaction's
size — `ComputeProof` returns the all-zero 32-byte value, and does so
without consulting the Merkle-root collaborator (the result is unchanged
under any replacement of that collaborator). -/
theorem computeProof_empty_challenge_all_zero (c : Collaborators)
    (rand : Nat → UInt256B) (prevBlockHash provisionalMerkleRoot : UInt256B)
    (maxSize : Nat) :
    ((∀ t, maxSize < c.txTotalSize t) →
      GenerateVirtualChallenge c.txTotalSize c.pushNum rand
        (CalculateSeed c.hash256 prevBlockHash provisionalMerkleRoot) maxSize = []) ∧
    (GenerateVirtualChallenge c.txTotalSize c.pushNum rand
        (CalculateSeed c.hash256 prevBlockHash provisionalMerkleRoot) maxSize = [] →
      ComputeProof c rand prevBlockHash provisionalMerkleRoot maxSize = zero256 ∧
        ∀ f, ComputeProof { c with computeMerkleRoot := f } rand prevBlockHash
          provisionalMerkleRoot maxSize = zero256) := by
  constructor
  · intro hbig
    simp only [GenerateVirtualChallenge, generateVirtualChallengeFull, genLoopFuel]
    rw [if_pos]
    · simp
    · have := hbig (mkVirtualTx c.pushNum (rand 0)
        (lcgInit (CalculateSeed c.hash256 prevBlockHash provisionalMerkleRoot))).1
      omega
  · intro hempty
    constructor
    · simp [ComputeProof, hempty]
    · intro f
      simp [ComputeProof, hempty]

/-- Witness for C6 with the example collaborators and `maxSize = 0`
(smaller than any synthetic transaction). -/
theorem computeProof_empty_challenge_all_zero_witness :
    GenerateVirtualChallenge exampleCollab.txTotalSize exampleCollab.pushNum
        (fun _ => zero256) (CalculateSeed exampleCollab.hash256 zero256 zero256) 0 = [] ∧
      ComputeProof exampleCollab (fun _ => zero256) zero256 zero256 0 = zero256 :=
  ⟨(computeProof_empty_challenge_all_zero exampleCollab (fun _ => zero256) zero256 zero256 0).1
    (fun _ => by simp [exampleCollab]),
   ((computeProof_empty_challenge_all_zero exampleCollab (fun _ => zero256) zero256 zero256 0).2
     ((computeProof_empty_challenge_all_zero exampleCollab (fun _ => zero256) zero256 zero256
       0).1 (fun _ => by simp [exampleCollab]))).1⟩

/-- Commitment layout stated in the spec's words (§4.5 Decode): total
length exactly 38 bytes, byte 0 the no-op marker opcode, byte 1 the literal
0x24, and bytes 2–5 equal to the fixed 4-byte magic tag.  This is the
refinement-side definition, to be compared with the code-side predicate
`isCommitmentScript`. -/
def specCommitmentLayout (s : List Nat) : Prop :=
  s.length = 38 ∧ s.get? 0 = some opRETURN ∧ s.get? 1 = some 0x24 ∧
    s.get? 2 = TCCP_MAGIC_BYTES.get? 0 ∧ s.get? 3 = TCCP_MAGIC_BYTES.get? 1 ∧
    s.get? 4 = TCCP_MAGIC_BYTES.get? 2 ∧ s.get? 5 = TCCP_MAGIC_BYTES.get? 3

/-- Claim C5: the commitment scan of `VerifyBlock` recognizes a coinbase
output script as a commitment exactly when it satisfies the spec's layout
(38 bytes, no-op marker, 0x24, magic tag at bytes 2–5), and on a match the
decoded submitted proof is exactly bytes 6–37 of the script. -/
theorem commitment_scan_layout_iff (s : List Nat) (i : Nat) :
    (scanLoop [⟨0, s⟩] i none =
      if isCommitmentScript s then ScanResult.found (s.drop 6) i
      else ScanResult.notFound) ∧
    (isCommitmentScript s = true ↔ specCommitmentLayout s) := by
  constructor
  · have hdec : decodeCommitment s = s.drop 6 := by
      simp [decodeCommitment, List.drop_drop]
    rw [scanLoop_cons]
    by_cases hm : isCommitmentScript s
    · simp only [hm, if_true, hdec]
      rfl
    · simp only [hm, if_false, Bool.false_eq_true]
      rfl
  · obtain _ | ⟨b0, _ | ⟨b1, _ | ⟨b2, _ | ⟨b3, _ | ⟨b4, _ | ⟨b5, t⟩⟩⟩⟩⟩⟩ := s <;>
      simp [isCommitmentScript, specCommitmentLayout, TCCP_MAGIC_BYTES, opRETURN]
    omega

/-- Witness for C5 at a concrete matching script. -/
theorem commitment_scan_layout_iff_witness :
    isCommitmentScript (commitmentScript zero256) = true ∧
      scanLoop [⟨0, commitmentScript zero256⟩] 0 none =
        ScanResult.found ((commitmentScript zero256).drop 6) 0 ∧
      specCommitmentLayout (commitmentScript zero256) :=
  ⟨by decide,
   by rw [(commitment_scan_layout_iff (commitmentScript zero256) 0).1, if_pos (by decide)],
   (commitment_scan_layout_iff (commitmentScript zero256) 0).2.mp (by decide)⟩

/-- Claim C2: round-trip acceptance.  For a previous hash, a size limit,
and a block whose transactions (coinbase `cb`, remainder `rest`) contain no
commitment-shaped output, appending to the coinbase exactly one commitment
output encoding `expected = ComputeProof(prevHash, R, limit)` — where `R`
is the Merkle root reconstructed from the unmodified transactions — yields
a block accepted by `VerifyBlock`, with the builder's external randomness
draw held at the fixed constant `r`. -/
theorem roundtrip_block_verifies (c : Collaborators) (r : UInt256B)
    (hlen : ∀ l, (c.computeMerkleRoot l).length = 32)
    (prevHash : UInt256B) (maxSize : Nat) (cb : Tx) (rest : List Tx)
    (hno : ∀ o ∈ cb.vout, isCommitmentScript o.scriptPubKey = false) :
    VerifyBlock c (fun _ => r)
      ⟨{ cb with vout := cb.vout ++
          [⟨0, commitmentScript
            (ComputeProof c (fun _ => r) prevHash (c.blockMerkleRoot (cb :: rest))
              maxSize)⟩] } :: rest⟩
      (some prevHash) maxSize = true := by
  set expected :=
    ComputeProof c (fun _ => r) prevHash (c.blockMerkleRoot (cb :: rest)) maxSize with hexp
  have hexplen : expected.length = 32 := computeProof_length c _ hlen _ _ _
  have hm : isCommitmentScript (commitmentScript expected) = true :=
    isCommitmentScript_commitmentScript _ hexplen
  have hscan : scanLoop (cb.vout ++ [⟨0, commitmentScript expected⟩]) 0 none =
      .found expected cb.vout.length := by
    rw [scanLoop_append_single cb.vout ⟨0, commitmentScript expected⟩ hno hm 0]
    rw [decodeCommitment_commitmentScript]
    simp
  simp only [VerifyBlock, List.headD_cons]
  simp only [hscan]
  rw [eraseIdx_append_length]
  have heta : ({ cb with vout := cb.vout } : Tx) = cb := rfl
  simp only [heta, List.tail_cons]
  exact beq_self_eq_true expected

/-- Witness for C2 at a concrete one-transaction block with a single
non-commitment coinbase output. -/
theorem roundtrip_block_verifies_witness :
    (∀ l, (exampleCollab.computeMerkleRoot l).length = 32) ∧
      (∀ o ∈ (⟨1, 0, [], [⟨50, [0, 1, 2]⟩]⟩ : Tx).vout,
        isCommitmentScript o.scriptPubKey = false) ∧
      VerifyBlock exampleCollab (fun _ => zero256)
        ⟨{ (⟨1, 0, [], [⟨50, [0, 1, 2]⟩]⟩ : Tx) with vout :=
            (⟨1, 0, [], [⟨50, [0, 1, 2]⟩]⟩ : Tx).vout ++
              [⟨0, commitmentScript
                (ComputeProof exampleCollab (fun _ => zero256) zero256
                  (exampleCollab.blockMerkleRoot [⟨1, 0, [], [⟨50, [0, 1, 2]⟩]⟩])
                  100)⟩] } :: []⟩
        (some zero256) 100 = true :=
  ⟨fun l => expand32_length _, by decide,
   roundtrip_block_verifies exampleCollab zero256 (fun l => expand32_length _) zero256 100
     ⟨1, 0, [], [⟨50, [0, 1, 2]⟩]⟩ [] (by decide)⟩

set_option maxRecDepth 1000000 in
/-- Claim C1 (failing input): `ComputeProof` is not a pure function of
`(prevBlockHash, provisionalMerkleRoot, maxSize)` alone — each synthetic
transaction's `prevout.hash` is drawn from the external randomness source
`InsecureRand256()` and flows into the transaction hash and hence the
proof.  Evaluated with the byte-faithful collaborators (`btcCollab`:
production SHA-256d, wire serialization, script pushes, Merkle fold), at
prevBlockHash = provisionalMerkleRoot = all-zero and limit 200 the seed is
SHA256d(0^64) = `e2f61c3f…`, the initial generator state is
18293289020745905890, the first synthetic transaction serializes to 106
bytes (both scriptSig pushes are 6 bytes) and is accepted, the second
candidate is rejected (106 + s > 200), so the challenge set is that single
transaction and the proof is its double-SHA-256 hash: two invocations with
identical declared inputs but different randomness streams (all-zero draws
vs. draws of `0x00…01`) return different proofs. -/
theorem computeProof_depends_on_external_randomness :
    ComputeProof btcCollab (fun _ => zero256) zero256 zero256 200 ≠
      ComputeProof btcCollab (fun _ => 1 :: List.replicate 31 0) zero256 zero256 200 := by
  decide

/-! ### Access-checked variant of `VerifyBlock` (for claim C10)

Every indexed access the C++ performs is replaced by a guarded access that
yields `none` when out of bounds: `block.vtx[0]`, the reads `script[0]` and
`script[1]`, the iterator arithmetic `script.begin() + 2` and
`data.begin() + 4`, the `uint256` construction from a 32-byte vector, and
the `vout.erase` at `commitmentOutIndex`.  The check order mirrors the
short-circuit order of the C++ conditions. -/

/-- The scan loop with every byte access guarded; `none` signals an access
that the C++ would perform out of bounds. -/
def scanLoopChecked : List TxOut → Nat → Option (UInt256B × Nat) → Option ScanResult
  | [], _, none => some .notFound
  | [], _, some pi => some (.found pi.1 pi.2)
  | o :: rest, i, found =>
    if o.scriptPubKey.length = 38 then
      match o.scriptPubKey[0]? with
      | none => none
      | some b0 =>
        if b0 == opRETURN then
          match o.scriptPubKey[1]? with
          | none => none
          | some b1 =>
            if b1 == 0x24 then
              if 2 ≤ o.scriptPubKey.length then
                if 4 ≤ (o.scriptPubKey.drop 2).length then
                  if (o.scriptPubKey.drop 2).take 4 == TCCP_MAGIC_BYTES then
                    match found with
                    | some _ => some .dup
                    | none =>
                      if ((o.scriptPubKey.drop 2).drop 4).length = 32 then
                        scanLoopChecked rest (i + 1)
                          (some ((o.scriptPubKey.drop 2).drop 4, i))
                      else none
                  else scanLoopChecked rest (i + 1) found
                else none
              else none
            else scanLoopChecked rest (i + 1) found
        else scanLoopChecked rest (i + 1) found
    else scanLoopChecked rest (i + 1) found

/-- `VerifyBlock` with every indexed access guarded. -/
def VerifyBlockChecked (c : Collaborators) (rand : Nat → UInt256B) (block : Block)
    (pindexPrev : Option UInt256B) (maxSize : Nat) : Option Bool :=
  match pindexPrev with
  | none => some true
  | some prevHash =>
    match block.vtx[0]? with
    | none => none
    | some coinbaseTx =>
      match scanLoopChecked coinbaseTx.vout 0 none with
      | none => none
      | some .dup => some false
      | some .notFound => some false
      | some (.found submittedProof commitmentOutIndex) =>
        if commitmentOutIndex < coinbaseTx.vout.length then
          if 0 < block.vtx.length then
            some (submittedProof ==
              ComputeProof c rand prevHash
                (c.blockMerkleRoot
                  ({ coinbaseTx with
                      vout := coinbaseTx.vout.eraseIdx commitmentOutIndex } ::
                    block.vtx.tail)) maxSize)
          else none
        else none

/-- Reading through `getD` agrees with a successful guarded access. -/
theorem getD_of_getElem?_some {l : List Nat} {n b : Nat} (h : l[n]? = some b) (d : Nat) :
    l.getD n d = b := by
  simp [List.getD_eq_getElem?_getD, h]

/-- The checked scan never goes out of bounds and agrees with the scan of
`VerifyBlock`. -/
theorem scanLoopChecked_eq (outs : List TxOut) :
    ∀ i found, scanLoopChecked outs i found = some (scanLoop outs i found) := by
  induction outs with
  | nil =>
    intro i found
    match found with
    | none => rfl
    | some pi => rfl
  | cons o rest ih =>
    intro i found
    rw [scanLoop_cons]
    by_cases h38 : o.scriptPubKey.length = 38
    · have h2le : 2 ≤ o.scriptPubKey.length := by omega
      have h4le : 4 ≤ (o.scriptPubKey.drop 2).length := by
        simp [List.length_drop, h38]
      have hdl : ((o.scriptPubKey.drop 2).drop 4).length = 32 := by
        simp [List.length_drop, h38]
      match hg0 : o.scriptPubKey[0]? with
      | none =>
        have := List.getElem?_eq_none_iff.mp hg0
        omega
      | some b0 =>
        have hd0 : o.scriptPubKey.getD 0 0 = b0 := getD_of_getElem?_some hg0 0
        by_cases hb0 : b0 = opRETURN
        · subst hb0
          match hg1 : o.scriptPubKey[1]? with
          | none =>
            have := List.getElem?_eq_none_iff.mp hg1
            omega
          | some b1 =>
            have hd1 : o.scriptPubKey.getD 1 0 = b1 := getD_of_getElem?_some hg1 0
            by_cases hb1 : b1 = 0x24
            · subst hb1
              by_cases hmg : (o.scriptPubKey.drop 2).take 4 = TCCP_MAGIC_BYTES
              · have hic : isCommitmentScript o.scriptPubKey = true := by
                  simp only [isCommitmentScript, h38, hd0, hd1, hmg]
                  rfl
                match found with
                | some x =>
                  simp [scanLoopChecked, hg0, hg1, h38, hmg, h2le, h4le, hic]
                | none =>
                  simp [scanLoopChecked, hg0, hg1, h38, hmg, h2le, h4le, hic,
                    hdl, ih, decodeCommitment, List.drop_drop]
              · have hic : isCommitmentScript o.scriptPubKey = false := by
                  simp only [isCommitmentScript]
                  simp [hmg]
                simp [scanLoopChecked, hg0, hg1, h38, hmg, h2le, h4le, hic, ih]
            · have hic : isCommitmentScript o.scriptPubKey = false := by
                simp only [isCommitmentScript, hd1]
                simp [hb1]
              simp [scanLoopChecked, hg0, hg1, hb1, h38, hic, ih]
        · have hic : isCommitmentScript o.scriptPubKey = false := by
            simp only [isCommitmentScript, hd0]
            simp [hb0]
          simp [scanLoopChecked, hg0, hb0, h38, hic, ih]
    · have hic : isCommitmentScript o.scriptPubKey = false := by
        simp only [isCommitmentScript]
        simp [h38]
      simp [scanLoopChecked, h38, hic, ih]

/-- Claim C10: for every non-genesis block with a non-empty transaction
list, `VerifyBlock` performs no out-of-bounds access: the fully
access-checked evaluation completes (never `none`) and agrees with
`VerifyBlock` — `block.vtx[0]` is read under the non-emptiness
precondition, every script byte read is covered by the prior length-38
check, and the erase of the matched output addresses a valid index. -/
theorem verifyBlock_memory_safe (c : Collaborators) (rand : Nat → UInt256B)
    (block : Block) (prevHash : UInt256B) (maxSize : Nat) (h : block.vtx ≠ []) :
    VerifyBlockChecked c rand block (some prevHash) maxSize =
      some (VerifyBlock c rand block (some prevHash) maxSize) := by
  obtain ⟨vtx⟩ := block
  match vtx with
  | [] => exact absurd rfl h
  | cb :: rest =>
    have hj : ∀ p j, scanLoop cb.vout 0 none = .found p j → j < cb.vout.length := by
      intro p j hscan
      rcases scanLoop_found_index_lt cb.vout 0 none p j hscan with ⟨q, hq⟩ | ⟨h1, h2⟩
      · simp at hq
      · omega
    simp only [VerifyBlockChecked, VerifyBlock, scanLoopChecked_eq, List.headD_cons,
      List.tail_cons, List.getElem?_cons_zero]
    match hscan : scanLoop cb.vout 0 none with
    | .dup => rfl
    | .notFound => rfl
    | .found p j =>
      have hjj := hj p j hscan
      simp [hjj]

/-- Witness for C10 at a concrete one-transaction block. -/
theorem verifyBlock_memory_safe_witness :
    (Block.mk [⟨1, 0, [], [⟨50, [0, 1, 2]⟩]⟩]).vtx ≠ [] ∧
      VerifyBlockChecked exampleCollab (fun _ => zero256)
          ⟨[⟨1, 0, [], [⟨50, [0, 1, 2]⟩]⟩]⟩ (some zero256) 100 =
        some (VerifyBlock exampleCollab (fun _ => zero256)
          ⟨[⟨1, 0, [], [⟨50, [0, 1, 2]⟩]⟩]⟩ (some zero256) 100) :=
  ⟨by decide,
   verifyBlock_memory_safe exampleCollab (fun _ => zero256)
     ⟨[⟨1, 0, [], [⟨50, [0, 1, 2]⟩]⟩]⟩ zero256 100 (by decide)⟩

end TCCPModel
